import Mathlib

/-!
A verification of the bouncing-box simulation core shared by the example
programs of this repository (minimal-winit, minimal-egui, imgui-winit,
minimal-winit-android, tiny-skia-winit), together with a model of each
example's event-handling control flow on presentation errors.

All i16 quantities are modelled as unbounded integers: every state considered
by the properties below keeps them far inside the i16 range, so Rust's
two's-complement i16 additions agree with integer addition on them.  The
integer casts that do shape behaviour (u32 as i16, i16 as usize, usize as i16)
are modelled explicitly.
-/

/-- The square sprite's side length: the constant BOX_SIZE, 64 in every variant. -/
def BOX_SIZE : Int := 64

/-- Simulation state of one example.  The resizable variant (imgui-winit)
stores width and height as struct fields; the fixed-size variants read the
file-level WIDTH and HEIGHT constants instead, which this model carries in the
same two fields. -/
structure World where
  width : Int
  height : Int
  box_x : Int
  box_y : Int
  velocity_x : Int
  velocity_y : Int
deriving DecidableEq

/-- World::new() of minimal-winit and minimal-winit-android, paired with those
files' constants WIDTH = 320 and HEIGHT = 240: box at (24, 16), velocity (1, 1). -/
def newWorld320 : World :=
  { width := 320, height := 240, box_x := 24, box_y := 16
    velocity_x := 1, velocity_y := 1 }

/-- The Rust cast u32 as i16: keep the low 16 bits, reinterpreted as signed. -/
def i16ofU32 (n : Nat) : Int :=
  if n % 65536 < 32768 then (n % 65536 : Nat) else (n % 65536 : Nat) - 65536

/-- World::new(width, height) of imgui-winit: the extents are cast u32 as i16;
box at (24, 16), velocity (1, 1). -/
def World.new (width height : Nat) : World :=
  { width := i16ofU32 width, height := i16ofU32 height, box_x := 24, box_y := 16
    velocity_x := 1, velocity_y := 1 }

/-- World::update of the toggle-form variants (minimal-winit main.rs 151-161,
minimal-egui main.rs 147-157, minimal-winit-android lib.rs 90-100): multiply a
velocity component by -1 when the box touches or crosses either wall on that
axis, then add the (new) velocities to the position. -/
def World.update (w : World) : World :=
  let vx := if w.box_x ≤ 0 ∨ w.box_x + BOX_SIZE > w.width then w.velocity_x * (-1) else w.velocity_x
  let vy := if w.box_y ≤ 0 ∨ w.box_y + BOX_SIZE > w.height then w.velocity_y * (-1) else w.velocity_y
  { w with velocity_x := vx, velocity_y := vy
           box_x := w.box_x + vx, box_y := w.box_y + vy }

/-- World::update of imgui-winit (main.rs 153-169), the two-flag form: four
independent ifs force the velocity sign, the later if winning on each axis,
then the (new) velocities are added to the position. -/
def World.updateFlags (w : World) : World :=
  let vx0 := if w.box_x ≤ 0 then 1 else w.velocity_x
  let vx := if w.box_x + BOX_SIZE > w.width then -1 else vx0
  let vy0 := if w.box_y ≤ 0 then 1 else w.velocity_y
  let vy := if w.box_y + BOX_SIZE > w.height then -1 else vy0
  { w with velocity_x := vx, velocity_y := vy
           box_x := w.box_x + vx, box_y := w.box_y + vy }

/-- Modelled from the spec (section 4.1, toggle form): when
box_x <= 0 OR box_x + SIZE > width, negate velocity_x, same for y; then
unconditionally box_x += velocity_x and box_y += velocity_y. -/
def specUpdate (w : World) : World :=
  let vx := if w.box_x ≤ 0 ∨ w.box_x + BOX_SIZE > w.width then -w.velocity_x else w.velocity_x
  let vy := if w.box_y ≤ 0 ∨ w.box_y + BOX_SIZE > w.height then -w.velocity_y else w.velocity_y
  { w with velocity_x := vx, velocity_y := vy
           box_x := w.box_x + vx, box_y := w.box_y + vy }

/-- World::resize of imgui-winit (main.rs 172-175): store the new extents,
cast u32 as i16; no other field is touched. -/
def World.resize (w : World) (width height : Nat) : World :=
  { w with width := i16ofU32 width, height := i16ofU32 height }

/-- The Rust cast i16 as usize on a 64-bit target: two's-complement
reinterpretation. -/
def usizeOfI16 (z : Int) : Nat := (z % (2 ^ 64)).toNat

/-- The Rust cast usize as i16: keep the low 16 bits, reinterpreted as signed. -/
def i16ofUsize (n : Nat) : Int :=
  if n % 65536 < 32768 then (n % 65536 : Nat) else (n % 65536 : Nat) - 65536

/-- The body of the loop in World::draw for the chunk with index i, once the
divisor width-as-usize is known nonzero: derive x = i % width and y = i / width
(both cast back to i16) and pick the chunk's color. -/
def rgbaTotal (w : World) (i : Nat) : List Nat :=
  let wu := usizeOfI16 w.width
  let x := i16ofUsize (i % wu)
  let y := i16ofUsize (i / wu)
  if x ≥ w.box_x ∧ x < w.box_x + BOX_SIZE ∧ y ≥ w.box_y ∧ y < w.box_y + BOX_SIZE
  then [0x5e, 0x48, 0xe8, 0xff]
  else [0x48, 0xb2, 0xe8, 0xff]

/-- One chunk of World::draw.  The source computes i % (width as usize), which
panics when that divisor is zero; the panic is modelled as none. -/
def rgbaAt (w : World) (i : Nat) : Option (List Nat) :=
  if usizeOfI16 w.width = 0 then none else some (rgbaTotal w i)

/-- The chunks_exact_mut(4) loop of World::draw (minimal-winit main.rs 166-184,
imgui-winit main.rs 180-198): every complete 4-byte chunk is overwritten with
its color; a trailing chunk shorter than 4 bytes is never visited. -/
def drawAux (w : World) (i : Nat) (frame : List Nat) : Option (List Nat) :=
  match frame with
  | _ :: _ :: _ :: _ :: rest => do
      let px ← rgbaAt w i
      let tail ← drawAux w (i + 1) rest
      pure (px ++ tail)
  | rest => pure rest

/-- World::draw over a byte buffer of any length. -/
def World.draw (w : World) (frame : List Nat) : Option (List Nat) :=
  drawAux w 0 frame

/-- The buffer World::draw leaves behind, as a total function (it agrees with
draw whenever the width divisor is nonzero): each complete 4-byte chunk is
replaced by its color, a short tail is kept as it was. -/
def drawBytes (w : World) (i : Nat) (frame : List Nat) : List Nat :=
  match frame with
  | _ :: _ :: _ :: _ :: rest => rgbaTotal w i ++ drawBytes w (i + 1) rest
  | rest => rest

/-! ## Event-handler control flow on presentation errors

Each example dispatches on incoming window events; the arms that call the
fallible presentation-surface operations (render, render_with, resize_surface)
decide whether to stop the loop and whether to call log_error, which prints
the error with its full chain of sources.  The models below record exactly
those two decisions for each variant, as a function of the event and of the
outcomes of the fallible calls made by the corresponding arm. -/

/-- Outcome of one fallible presentation-surface call. -/
inductive SurfaceResult
  | ok
  | err
deriving DecidableEq

/-- What one event-handler arm decided: whether the event loop was told to
stop (break / exit), and whether log_error was called. -/
structure LoopOutcome where
  exited : Bool
  logged : Bool
deriving DecidableEq

/-- The aggregated event type of the async minimal-winit example
(main.rs 65-71). -/
inductive AEvent
  | close
  | resize
  | redraw
  | cont
  | timer
deriving DecidableEq

/-- The event-loop body of minimal-winit (main.rs 104-126): Close breaks;
Redraw renders and, on error, logs and breaks; Resize resizes the surface and,
on error, logs and breaks; Continue and Timer never touch the surface. -/
def asyncWinitStep (e : AEvent) (renderResult resizeResult : SurfaceResult) : LoopOutcome :=
  match e with
  | .close => { exited := true, logged := false }
  | .cont => { exited := false, logged := false }
  | .timer => { exited := false, logged := false }
  | .redraw =>
    match renderResult with
    | .ok => { exited := false, logged := false }
    | .err => { exited := true, logged := true }
  | .resize =>
    match resizeResult with
    | .ok => { exited := false, logged := false }
    | .err => { exited := true, logged := true }

/-- Window events of the ApplicationHandler-based variants. -/
inductive WEvent
  | closeRequested
  | scaleFactorChanged
  | keyEscapePressed
  | keyOther
  | resized
  | redrawRequested
  | other
deriving DecidableEq

/-- App::window_event of minimal-egui (main.rs 66-105): CloseRequested and a
pressed Escape exit; Resized calls resize_surface and discards its Result with
.ok(), continuing regardless; RedrawRequested checks the render_with result
and, on error, logs and exits. -/
def eguiWindowEvent (e : WEvent) (renderResult resizeResult : SurfaceResult) : LoopOutcome :=
  match e, resizeResult with
  | .closeRequested, _ => { exited := true, logged := false }
  | .scaleFactorChanged, _ => { exited := false, logged := false }
  | .keyEscapePressed, _ => { exited := true, logged := false }
  | .keyOther, _ => { exited := false, logged := false }
  | .resized, _ => { exited := false, logged := false }
  | .redrawRequested, _ =>
    match renderResult with
    | .ok => { exited := false, logged := false }
    | .err => { exited := true, logged := true }
  | .other, _ => { exited := false, logged := false }

/-- App::window_event of imgui-winit (main.rs 66-108): CloseRequested and a
pressed Escape exit; Resized calls resize_surface and discards its Result with
.ok(); RedrawRequested binds the render_with result to an unused variable,
then calls render() a second time and, if that returns an error, logs and
exits. -/
def imguiWindowEvent (e : WEvent)
    (renderWithResult renderResult resizeResult : SurfaceResult) : LoopOutcome :=
  match e, renderWithResult, resizeResult with
  | .closeRequested, _, _ => { exited := true, logged := false }
  | .keyEscapePressed, _, _ => { exited := true, logged := false }
  | .resized, _, _ => { exited := false, logged := false }
  | .redrawRequested, _, _ =>
    match renderResult with
    | .ok => { exited := false, logged := false }
    | .err => { exited := true, logged := true }
  | _, _, _ => { exited := false, logged := false }

/-- App::window_event of minimal-winit-android (lib.rs 55-73): CloseRequested
exits; Resized calls resize_surface and discards its Result with .ok();
RedrawRequested exits on a render error but never calls log_error. -/
def androidWindowEvent (e : WEvent) (renderResult resizeResult : SurfaceResult) : LoopOutcome :=
  match e, resizeResult with
  | .closeRequested, _ => { exited := true, logged := false }
  | .resized, _ => { exited := false, logged := false }
  | .redrawRequested, _ =>
    match renderResult with
    | .ok => { exited := false, logged := false }
    | .err => { exited := true, logged := false }
  | _, _ => { exited := false, logged := false }

/-- Events handled by the tiny-skia-winit loop. -/
inductive TEvent
  | close
  | resized
  | redrawRequested
  | otherInput
deriving DecidableEq

/-- The event-loop closure of tiny-skia-winit (main.rs 45-77): Escape or a
close request exits; a window resize calls resize_surface and, on error, logs
and exits; a redraw renders and, on error, logs and exits. -/
def tinySkiaStep (e : TEvent) (renderResult resizeResult : SurfaceResult) : LoopOutcome :=
  match e with
  | .close => { exited := true, logged := false }
  | .resized =>
    match resizeResult with
    | .ok => { exited := false, logged := false }
    | .err => { exited := true, logged := true }
  | .redrawRequested =>
    match renderResult with
    | .ok => { exited := false, logged := false }
    | .err => { exited := true, logged := true }
  | .otherInput => { exited := false, logged := false }

/-! ## Claims -/

/-- Unfolding lemma for the toggle-form update. -/
theorem update_eq (w : World) :
    w.update =
      { width := w.width, height := w.height
        box_x := w.box_x +
          (if w.box_x ≤ 0 ∨ w.box_x + 64 > w.width then -w.velocity_x else w.velocity_x)
        box_y := w.box_y +
          (if w.box_y ≤ 0 ∨ w.box_y + 64 > w.height then -w.velocity_y else w.velocity_y)
        velocity_x := if w.box_x ≤ 0 ∨ w.box_x + 64 > w.width then -w.velocity_x else w.velocity_x
        velocity_y :=
          if w.box_y ≤ 0 ∨ w.box_y + 64 > w.height then -w.velocity_y else w.velocity_y } := by
  simp [World.update, BOX_SIZE, mul_neg_one]

/-- Unfolding lemma for the two-flag update. -/
theorem updateFlags_eq (w : World) :
    w.updateFlags =
      { width := w.width, height := w.height
        box_x := w.box_x +
          (if w.box_x + 64 > w.width then -1 else if w.box_x ≤ 0 then 1 else w.velocity_x)
        box_y := w.box_y +
          (if w.box_y + 64 > w.height then -1 else if w.box_y ≤ 0 then 1 else w.velocity_y)
        velocity_x := if w.box_x + 64 > w.width then -1 else if w.box_x ≤ 0 then 1 else w.velocity_x
        velocity_y :=
          if w.box_y + 64 > w.height then -1
          else if w.box_y ≤ 0 then 1 else w.velocity_y } := by
  simp [World.updateFlags, BOX_SIZE]

/-- Claim C1: in the toggle-form variants, World::update implements exactly the
spec's wall-collision rule: first, if box_x <= 0 or box_x + SIZE > width then
velocity_x is negated (likewise for y against height), and then,
unconditionally, box_x is incremented by velocity_x and box_y by velocity_y;
update consumes only the current state, yields the successor state, and has no
error condition. -/
theorem c1_toggle_update_matches_spec : ∀ w : World, w.update = specUpdate w := by
  intro w
  simp [World.update, specUpdate, mul_neg_one]

/-- Claim C3, counterexample: the toggle form and the two-flag form are not
equivalent on every state.  With the box at the left wall and the velocity
already pointing right, the toggle form negates velocity_x and moves the box to
-1, while the two-flag form forces velocity_x = +1 and moves the box to 1. -/
theorem c3_counterexample :
    World.update { width := 320, height := 240, box_x := 0, box_y := 50
                   velocity_x := 1, velocity_y := 1 } ≠
    World.updateFlags { width := 320, height := 240, box_x := 0, box_y := 50
                        velocity_x := 1, velocity_y := 1 } := by
  decide

/-- Claim C3, amended: the two policies agree on every state in which each
velocity component points toward any wall whose condition fires on its axis:
if box_x <= 0 then velocity_x = -1, and if box_x + SIZE > width then
velocity_x = +1 (same for y).  On such states the toggle and two-flag updates
produce the same successor state. -/
theorem c3_amended_policies_agree (w : World)
    (hx0 : w.box_x ≤ 0 → w.velocity_x = -1)
    (hx1 : w.box_x + BOX_SIZE > w.width → w.velocity_x = 1)
    (hy0 : w.box_y ≤ 0 → w.velocity_y = -1)
    (hy1 : w.box_y + BOX_SIZE > w.height → w.velocity_y = 1) :
    w.update = w.updateFlags := by
  unfold World.update World.updateFlags
  by_cases h1 : w.box_x ≤ 0 <;> by_cases h2 : w.box_x + BOX_SIZE > w.width <;>
    by_cases h3 : w.box_y ≤ 0 <;> by_cases h4 : w.box_y + BOX_SIZE > w.height <;>
    simp_all <;> omega

/-- Claim C3, witness for the amended theorem at the freshly constructed state,
whose box touches no wall. -/
theorem c3_amended_witness :
    (newWorld320.box_x ≤ 0 → newWorld320.velocity_x = -1) ∧
    newWorld320.update = newWorld320.updateFlags :=
  ⟨by decide, c3_amended_policies_agree newWorld320
    (by decide) (by decide) (by decide) (by decide)⟩

set_option maxRecDepth 100000 in
/-- Claim C4, counterexample: starting from World::new() with a 320x240 canvas,
velocity_x has not flipped after the 233rd update; it is still +1 there,
because the bounce condition requires box_x + SIZE > width and after 232
updates box_x + SIZE only equals the width. -/
theorem c4_counterexample :
    ¬ (World.update^[233] newWorld320).velocity_x = -1 := by
  decide

set_option maxRecDepth 100000 in
/-- Claim C4, amended: for width = 320 and height = 240, starting from
World::new() (box at (24, 16), velocity (1, 1)), after exactly 232 updates
box_x = 256, so the box's right edge rests exactly on the right wall
(box_x + SIZE = width); the 233rd update still leaves velocity_x = +1 and
moves the box one step past the wall, and velocity_x first flips to -1 on the
234th update. -/
theorem c4_amended_bounce_tick :
    (World.update^[232] newWorld320).box_x = 256 ∧
    (World.update^[232] newWorld320).box_x + BOX_SIZE = newWorld320.width ∧
    (World.update^[233] newWorld320).velocity_x = 1 ∧
    (World.update^[233] newWorld320).box_x = 257 ∧
    (World.update^[234] newWorld320).velocity_x = -1 := by
  decide

/-- Claim C5: for every state with unit velocity components, SIZE < width,
SIZE < height, and the box inside the canvas, one update (of either form)
keeps the position within one step of the bounds: -1 <= box_x and
box_x + SIZE <= width + 1, and likewise for y. -/
theorem c5_bounded_overshoot (w : World)
    (hvx : w.velocity_x = -1 ∨ w.velocity_x = 1)
    (hvy : w.velocity_y = -1 ∨ w.velocity_y = 1)
    (_hW : BOX_SIZE < w.width) (_hH : BOX_SIZE < w.height)
    (hx0 : 0 ≤ w.box_x) (hx1 : w.box_x + BOX_SIZE ≤ w.width)
    (hy0 : 0 ≤ w.box_y) (hy1 : w.box_y + BOX_SIZE ≤ w.height) :
    (-1 ≤ (w.update).box_x ∧ (w.update).box_x + BOX_SIZE ≤ w.width + 1 ∧
     -1 ≤ (w.update).box_y ∧ (w.update).box_y + BOX_SIZE ≤ w.height + 1) ∧
    (-1 ≤ (w.updateFlags).box_x ∧ (w.updateFlags).box_x + BOX_SIZE ≤ w.width + 1 ∧
     -1 ≤ (w.updateFlags).box_y ∧ (w.updateFlags).box_y + BOX_SIZE ≤ w.height + 1) := by
  simp only [update_eq, updateFlags_eq, BOX_SIZE] at *
  split_ifs <;> omega

/-- Claim C5, witness at the freshly constructed 320x240 state. -/
theorem c5_witness :
    (newWorld320.velocity_x = -1 ∨ newWorld320.velocity_x = 1) ∧
    (-1 ≤ (newWorld320.update).box_x ∧
     (newWorld320.update).box_x + BOX_SIZE ≤ newWorld320.width + 1 ∧
     -1 ≤ (newWorld320.update).box_y ∧
     (newWorld320.update).box_y + BOX_SIZE ≤ newWorld320.height + 1) :=
  ⟨by decide,
   (c5_bounded_overshoot newWorld320 (by decide) (by decide) (by decide) (by decide)
     (by decide) (by decide) (by decide) (by decide)).1⟩

/-- Claim C6: both velocity components lie in {-1, +1} in every reachable
state: both World::new constructors initialize them to (1, 1), and one update
of either form sends velocity components in {-1, +1} to velocity components in
{-1, +1}. -/
theorem c6_velocity_units (w : World) (a b : Nat)
    (hvx : w.velocity_x = -1 ∨ w.velocity_x = 1)
    (hvy : w.velocity_y = -1 ∨ w.velocity_y = 1) :
    ((World.new a b).velocity_x = 1 ∧ (World.new a b).velocity_y = 1 ∧
     newWorld320.velocity_x = 1 ∧ newWorld320.velocity_y = 1) ∧
    (((w.update).velocity_x = -1 ∨ (w.update).velocity_x = 1) ∧
     ((w.update).velocity_y = -1 ∨ (w.update).velocity_y = 1)) ∧
    (((w.updateFlags).velocity_x = -1 ∨ (w.updateFlags).velocity_x = 1) ∧
     ((w.updateFlags).velocity_y = -1 ∨ (w.updateFlags).velocity_y = 1)) := by
  refine ⟨⟨rfl, rfl, rfl, rfl⟩, ?_, ?_⟩ <;>
    simp only [update_eq, updateFlags_eq] <;> split_ifs <;> omega

/-- Claim C6, witness at the freshly constructed 320x240 state. -/
theorem c6_witness :
    (newWorld320.velocity_x = -1 ∨ newWorld320.velocity_x = 1) ∧
    (((newWorld320.update).velocity_x = -1 ∨ (newWorld320.update).velocity_x = 1) ∧
     ((newWorld320.update).velocity_y = -1 ∨ (newWorld320.update).velocity_y = 1)) :=
  ⟨by decide,
   (c6_velocity_units newWorld320 320 240 (by decide) (by decide)).2.1⟩

/-- Claim C7: World::resize updates only the stored width and height: for every
state and every new size, box_x, box_y, velocity_x and velocity_y are
unchanged; in particular resizing to 160x120 with the box at (100, 100) leaves
the box at (100, 100) although it now lies outside the new bounds. -/
theorem c7_resize_only_bounds (w : World) (a b : Nat) :
    (w.resize a b).box_x = w.box_x ∧ (w.resize a b).box_y = w.box_y ∧
    (w.resize a b).velocity_x = w.velocity_x ∧ (w.resize a b).velocity_y = w.velocity_y ∧
    (w.resize a b).width = i16ofU32 a ∧ (w.resize a b).height = i16ofU32 b ∧
    (World.resize { width := 320, height := 240, box_x := 100, box_y := 100
                    velocity_x := 1, velocity_y := 1 } 160 120).box_x = 100 ∧
    (World.resize { width := 320, height := 240, box_x := 100, box_y := 100
                    velocity_x := 1, velocity_y := 1 } 160 120).box_y = 100 := by
  exact ⟨rfl, rfl, rfl, rfl, rfl, rfl, by decide, by decide⟩

/-- Claim C8, counterexample: in minimal-egui, a resize_surface error during an
explicit Resized event is neither logged nor fatal; its Result is discarded
with .ok() and the application keeps running. -/
theorem c8_counterexample :
    (eguiWindowEvent WEvent.resized SurfaceResult.ok SurfaceResult.err).exited = false ∧
    (eguiWindowEvent WEvent.resized SurfaceResult.ok SurfaceResult.err).logged = false := by
  decide

/-- Claim C8, amended: render errors during a redraw are fatal in every
variant, and are logged with their cause chain in all variants except the
android one, which exits without logging; resize_surface errors are logged and
fatal only in the async minimal-winit and tiny-skia variants, while the egui,
imgui and android variants discard them with .ok() and keep running.  (In the
imgui variant the render_with result is bound to an unused variable; the error
checked is that of the follow-up render() call.) -/
theorem c8_amended_error_policy :
    ∀ r s : SurfaceResult,
      asyncWinitStep AEvent.redraw SurfaceResult.err r =
        { exited := true, logged := true } ∧
      asyncWinitStep AEvent.resize r SurfaceResult.err =
        { exited := true, logged := true } ∧
      tinySkiaStep TEvent.redrawRequested SurfaceResult.err r =
        { exited := true, logged := true } ∧
      tinySkiaStep TEvent.resized r SurfaceResult.err =
        { exited := true, logged := true } ∧
      eguiWindowEvent WEvent.redrawRequested SurfaceResult.err r =
        { exited := true, logged := true } ∧
      eguiWindowEvent WEvent.resized r SurfaceResult.err =
        { exited := false, logged := false } ∧
      imguiWindowEvent WEvent.redrawRequested r SurfaceResult.err s =
        { exited := true, logged := true } ∧
      imguiWindowEvent WEvent.resized r s SurfaceResult.err =
        { exited := false, logged := false } ∧
      androidWindowEvent WEvent.redrawRequested SurfaceResult.err r =
        { exited := true, logged := false } ∧
      androidWindowEvent WEvent.resized r SurfaceResult.err =
        { exited := false, logged := false } := by
  intro r s
  cases r <;> cases s <;> decide

/-- Claim C9: starting from World::new() with a 320x240 canvas (box at
(24, 16), velocity (1, 1)), a single update yields the box at (25, 17) with
the velocity unchanged at (1, 1). -/
theorem c9_first_update :
    newWorld320.update =
      { width := 320, height := 240, box_x := 25, box_y := 17
        velocity_x := 1, velocity_y := 1 } := by
  decide

/-! ## Lemmas about the draw loop -/

/-- Induction along the 4-byte chunking of a buffer, following the match of
drawAux and drawBytes. -/
theorem chunk4Induction {motive : List Nat → Prop}
    (h0 : motive [])
    (h1 : ∀ a, motive [a])
    (h2 : ∀ a b, motive [a, b])
    (h3 : ∀ a b c, motive [a, b, c])
    (hstep : ∀ a b c d rest, motive rest → motive (a :: b :: c :: d :: rest)) :
    ∀ l, motive l := by
  have H : ∀ n l, List.length l ≤ n → motive l := by
    intro n
    induction n with
    | zero =>
      intro l hl
      cases l with
      | nil => exact h0
      | cons a t => simp at hl
    | succ n ih =>
      intro l hl
      match l with
      | [] => exact h0
      | [a] => exact h1 a
      | [a, b] => exact h2 a b
      | [a, b, c] => exact h3 a b c
      | a :: b :: c :: d :: rest =>
        refine hstep a b c d rest (ih rest ?_)
        simp only [List.length_cons] at hl
        omega
  intro l
  exact H l.length l le_rfl

/-- Every chunk color is exactly 4 bytes. -/
theorem rgbaTotal_length (w : World) (i : Nat) : (rgbaTotal w i).length = 4 := by
  simp only [rgbaTotal]
  split <;> rfl

/-- Dropping one 4-element list from the front of an append. -/
theorem drop4_append (x y : List Nat) (n : Nat) (hx : x.length = 4) :
    (x ++ y).drop (n + 4) = y.drop n := by
  match x with
  | [p0, p1, p2, p3] => rfl
  | [] => exfalso; simp only [List.length_nil] at hx; omega
  | [p0] => exfalso; simp only [List.length_cons, List.length_nil] at hx; omega
  | [p0, p1] => exfalso; simp only [List.length_cons, List.length_nil] at hx; omega
  | [p0, p1, p2] => exfalso; simp only [List.length_cons, List.length_nil] at hx; omega
  | p0 :: p1 :: p2 :: p3 :: p4 :: t =>
    exfalso; simp only [List.length_cons] at hx; omega

/-- Dropping four leading elements given as conses. -/
theorem drop4_cons (a b c d : Nat) (y : List Nat) (n : Nat) :
    (a :: b :: c :: d :: y).drop (n + 4) = y.drop n := rfl

/-- Taking the first 4-element list off the front of an append. -/
theorem take4_append (x y : List Nat) (hx : x.length = 4) :
    (x ++ y).take 4 = x := by
  match x with
  | [p0, p1, p2, p3] => rfl
  | [] => exfalso; simp only [List.length_nil] at hx; omega
  | [p0] => exfalso; simp only [List.length_cons, List.length_nil] at hx; omega
  | [p0, p1] => exfalso; simp only [List.length_cons, List.length_nil] at hx; omega
  | [p0, p1, p2] => exfalso; simp only [List.length_cons, List.length_nil] at hx; omega
  | p0 :: p1 :: p2 :: p3 :: p4 :: t =>
    exfalso; simp only [List.length_cons] at hx; omega

/-- Whenever the width divisor is nonzero, the draw loop never fails and
computes drawBytes. -/
theorem drawAux_eq_some (w : World) (h : usizeOfI16 w.width ≠ 0) :
    ∀ (l : List Nat) (i : Nat), drawAux w i l = some (drawBytes w i l) := by
  intro l
  induction l using chunk4Induction with
  | h0 => intro i; rfl
  | h1 => intro i; rfl
  | h2 => intro i; rfl
  | h3 => intro i; rfl
  | hstep a b c d rest ih =>
    intro i
    simp [drawAux, drawBytes, rgbaAt, h, ih]

/-- The draw loop preserves the buffer length. -/
theorem drawBytes_length (w : World) :
    ∀ (l : List Nat) (i : Nat), (drawBytes w i l).length = l.length := by
  intro l
  induction l using chunk4Induction with
  | h0 => intro i; rfl
  | h1 => intro i; rfl
  | h2 => intro i; rfl
  | h3 => intro i; rfl
  | hstep a b c d rest ih =>
    intro i
    simp only [drawBytes, List.length_append, List.length_cons, rgbaTotal_length, ih]
    omega

/-- On a buffer shorter than one chunk, the draw loop writes nothing. -/
theorem drawBytes_short (w : World) (i : Nat) (l : List Nat) (h : l.length < 4) :
    drawBytes w i l = l := by
  match l with
  | [] => rfl
  | [a] => rfl
  | [a, b] => rfl
  | [a, b, c] => rfl
  | a :: b :: c :: d :: rest =>
    exfalso; simp only [List.length_cons] at h; omega

/-- Dropping whole chunks commutes with the draw loop. -/
theorem drawBytes_drop (w : World) :
    ∀ (k : Nat) (l : List Nat) (i : Nat), 4 * k ≤ l.length →
      (drawBytes w i l).drop (4 * k) = drawBytes w (i + k) (l.drop (4 * k)) := by
  intro k
  induction k with
  | zero => intro l i h; simp
  | succ k ih =>
    intro l i h
    match l with
    | [] => exfalso; simp only [List.length_nil] at h; omega
    | [a] => exfalso; simp only [List.length_cons, List.length_nil] at h; omega
    | [a, b] => exfalso; simp only [List.length_cons, List.length_nil] at h; omega
    | [a, b, c] => exfalso; simp only [List.length_cons, List.length_nil] at h; omega
    | a :: b :: c :: d :: rest =>
      have hr : 4 * k ≤ rest.length := by
        simp only [List.length_cons] at h
        omega
      have e1 : 4 * (k + 1) = 4 * k + 4 := by ring
      rw [e1]
      have e2 : drawBytes w i (a :: b :: c :: d :: rest) =
          rgbaTotal w i ++ drawBytes w (i + 1) rest := by
        simp [drawBytes]
      rw [e2, drop4_append _ _ _ (rgbaTotal_length w i), drop4_cons,
        ih rest (i + 1) hr]
      have e3 : i + 1 + k = i + (k + 1) := by ring
      rw [e3]

/-- The first chunk of the draw loop's output, when the buffer holds at least
one whole chunk. -/
theorem drawBytes_take4 (w : World) (l : List Nat) (i : Nat) (h : 4 ≤ l.length) :
    (drawBytes w i l).take 4 = rgbaTotal w i := by
  match l with
  | [] => exfalso; simp only [List.length_nil] at h; omega
  | [a] => exfalso; simp only [List.length_cons, List.length_nil] at h; omega
  | [a, b] => exfalso; simp only [List.length_cons, List.length_nil] at h; omega
  | [a, b, c] => exfalso; simp only [List.length_cons, List.length_nil] at h; omega
  | a :: b :: c :: d :: rest =>
    have e2 : drawBytes w i (a :: b :: c :: d :: rest) =
        rgbaTotal w i ++ drawBytes w (i + 1) rest := by
      simp [drawBytes]
    rw [e2, take4_append _ _ (rgbaTotal_length w i)]

/-- Numeric value of the usize modulus. -/
theorem two_pow_64_eq : (2 : Int) ^ 64 = 18446744073709551616 := by norm_num

/-- The i16-to-usize cast is the identity on positive i16 values. -/
theorem usizeOfI16_of_pos (z : Int) (h0 : 0 < z) (h1 : z < 32768) :
    usizeOfI16 z = z.toNat := by
  unfold usizeOfI16
  rw [two_pow_64_eq]
  omega

/-- The i16-to-usize cast sends no nonzero i16 value to zero. -/
theorem usizeOfI16_ne_zero (z : Int) (h0 : -32768 ≤ z) (h1 : z < 32768) (h2 : z ≠ 0) :
    usizeOfI16 z ≠ 0 := by
  unfold usizeOfI16
  rw [two_pow_64_eq]
  omega

/-- The usize-to-i16 cast is the identity below 2^15. -/
theorem i16ofUsize_small (n : Nat) (h : n < 32768) : i16ofUsize n = n := by
  unfold i16ofUsize
  rw [Nat.mod_eq_of_lt (by omega), if_pos h]

/-- On an in-range positive width, the chunk color is given by the plain
row-major x = i % width, y = i / width formulas, with no cast adjustment. -/
theorem rgbaTotal_formula (w : World) (i : Nat)
    (hw0 : 0 < w.width) (hw1 : w.width ≤ 32767) (hh1 : w.height ≤ 32767)
    (hi : i < w.width.toNat * w.height.toNat) :
    rgbaTotal w i =
      if w.box_x ≤ (↑(i % w.width.toNat) : Int) ∧
         (↑(i % w.width.toNat) : Int) < w.box_x + BOX_SIZE ∧
         w.box_y ≤ (↑(i / w.width.toNat) : Int) ∧
         (↑(i / w.width.toNat) : Int) < w.box_y + BOX_SIZE
      then [0x5e, 0x48, 0xe8, 0xff] else [0x48, 0xb2, 0xe8, 0xff] := by
  have hwpos : 0 < w.width.toNat := by omega
  have hwu : usizeOfI16 w.width = w.width.toNat := usizeOfI16_of_pos w.width hw0 (by omega)
  have hxlt : i % w.width.toNat < 32768 := by
    have := Nat.mod_lt i hwpos
    omega
  have hylt : i / w.width.toNat < 32768 := by
    have hdiv : i / w.width.toNat < w.height.toNat := Nat.div_lt_of_lt_mul hi
    omega
  simp only [rgbaTotal]
  rw [hwu, i16ofUsize_small _ hxlt, i16ofUsize_small _ hylt]

/-- Claim C2: for every state whose extents are i16 values and every buffer of
length width*height*4, draw succeeds, fully overwrites the buffer keeping its
length, and writes at every pixel index i (x = i % width, y = i / width,
row-major) the bytes 0x5e,0x48,0xe8,0xff when box_x <= x < box_x+SIZE and
box_y <= y < box_y+SIZE, and the bytes 0x48,0xb2,0xe8,0xff otherwise.  (For a
non-positive width the required buffer is empty and the statement is vacuous.) -/
theorem c2_draw_formula (w : World) (frame : List Nat)
    (hwr : -32768 ≤ w.width) (hw1 : w.width ≤ 32767) (hh1 : w.height ≤ 32767)
    (hlen : frame.length = w.width.toNat * w.height.toNat * 4) :
    w.draw frame = some (drawBytes w 0 frame) ∧
    (drawBytes w 0 frame).length = frame.length ∧
    ∀ i, i < w.width.toNat * w.height.toNat →
      ((drawBytes w 0 frame).drop (4 * i)).take 4 =
        (if w.box_x ≤ (↑(i % w.width.toNat) : Int) ∧
            (↑(i % w.width.toNat) : Int) < w.box_x + BOX_SIZE ∧
            w.box_y ≤ (↑(i / w.width.toNat) : Int) ∧
            (↑(i / w.width.toNat) : Int) < w.box_y + BOX_SIZE
         then [0x5e, 0x48, 0xe8, 0xff] else [0x48, 0xb2, 0xe8, 0xff]) := by
  by_cases hw0 : 0 < w.width
  case neg =>
    have hz : w.width.toNat = 0 := by omega
    rw [hz] at hlen
    simp only [Nat.zero_mul] at hlen
    have hfe : frame = [] := List.eq_nil_of_length_eq_zero hlen
    subst hfe
    refine ⟨rfl, rfl, ?_⟩
    intro i hi
    rw [hz] at hi
    exfalso
    omega
  case pos =>
    have hwu0 : usizeOfI16 w.width ≠ 0 :=
      usizeOfI16_ne_zero w.width (by omega) (by omega) (by omega)
    refine ⟨drawAux_eq_some w hwu0 frame 0, drawBytes_length w frame 0, ?_⟩
    intro i hi
    obtain ⟨n, hn⟩ : ∃ n, n = w.width.toNat * w.height.toNat := ⟨_, rfl⟩
    rw [← hn] at hlen hi
    have hd := drawBytes_drop w i frame 0 (by omega)
    rw [hd]
    have hlen4 : 4 ≤ (frame.drop (4 * i)).length := by
      rw [List.length_drop]
      omega
    rw [drawBytes_take4 w (frame.drop (4 * i)) (0 + i) hlen4, Nat.zero_add,
      rgbaTotal_formula w i hw0 hw1 hh1 (by omega)]

/-- Claim C2, witness: a 2x2 canvas whose box covers every pixel; the 16-byte
buffer is fully overwritten with the box color. -/
theorem c2_draw_formula_witness :
    (-32768 : Int) ≤ 2 ∧
    World.draw { width := 2, height := 2, box_x := 0, box_y := 0
                 velocity_x := 1, velocity_y := 1 }
        [0, 0, 0, 0, 0, 0, 0, 0, 0, 0, 0, 0, 0, 0, 0, 0] =
      some [0x5e, 0x48, 0xe8, 0xff, 0x5e, 0x48, 0xe8, 0xff,
            0x5e, 0x48, 0xe8, 0xff, 0x5e, 0x48, 0xe8, 0xff] := by
  refine ⟨by decide, ?_⟩
  have h := (c2_draw_formula
    { width := 2, height := 2, box_x := 0, box_y := 0
      velocity_x := 1, velocity_y := 1 }
    [0, 0, 0, 0, 0, 0, 0, 0, 0, 0, 0, 0, 0, 0, 0, 0]
    (by decide) (by decide) (by decide) (by decide)).1
  rw [h]
  decide

/-- Claim C10, counterexample: in the resizable variant a state with width 0
is expressible, and on it draw fails on any buffer holding a complete chunk:
the loop body computes i % (width as usize) with a zero divisor. -/
theorem c10_counterexample :
    World.draw { width := 0, height := 240, box_x := 24, box_y := 16
                 velocity_x := 1, velocity_y := 1 } [0, 0, 0, 0] = none := by
  decide

/-- Claim C10, amended: for every state whose width is a nonzero i16 value
(true of every fixed-width variant, where width is the constant 320 or 640,
and of every reachable state of the resizable variant) and every byte buffer
of any length, draw succeeds without reading or writing out of bounds, writes
exactly the complete 4-byte chunks (the first 4*floor(len/4) bytes), keeps the
buffer length, and leaves bytes past the last complete chunk unchanged. -/
theorem c10_draw_any_length (w : World) (frame : List Nat)
    (h0 : -32768 ≤ w.width) (h1 : w.width < 32768) (h2 : w.width ≠ 0) :
    w.draw frame = some (drawBytes w 0 frame) ∧
    (drawBytes w 0 frame).length = frame.length ∧
    (∀ k, 4 * (k + 1) ≤ frame.length →
      ((drawBytes w 0 frame).drop (4 * k)).take 4 = rgbaTotal w k) ∧
    (drawBytes w 0 frame).drop (4 * (frame.length / 4)) =
      frame.drop (4 * (frame.length / 4)) := by
  have hwu : usizeOfI16 w.width ≠ 0 := usizeOfI16_ne_zero w.width h0 h1 h2
  refine ⟨drawAux_eq_some w hwu frame 0, drawBytes_length w frame 0, ?_, ?_⟩
  · intro k hk
    have hd := drawBytes_drop w k frame 0 (by omega)
    rw [hd]
    have hlen4 : 4 ≤ (frame.drop (4 * k)).length := by
      rw [List.length_drop]
      omega
    rw [drawBytes_take4 w (frame.drop (4 * k)) (0 + k) hlen4, Nat.zero_add]
  · have hd := drawBytes_drop w (frame.length / 4) frame 0 (by omega)
    rw [hd]
    have hshort : (frame.drop (4 * (frame.length / 4))).length < 4 := by
      rw [List.length_drop]
      omega
    rw [drawBytes_short w (0 + frame.length / 4) _ hshort]

/-- Claim C10, witness for the amended theorem: a 5-byte buffer on the 320x240
state; the single complete chunk is overwritten with the background color and
the trailing fifth byte is untouched. -/
theorem c10_draw_any_length_witness :
    newWorld320.width ≠ 0 ∧
    newWorld320.draw [1, 2, 3, 4, 5] = some [0x48, 0xb2, 0xe8, 0xff, 5] := by
  refine ⟨by decide, ?_⟩
  have h := (c10_draw_any_length newWorld320 [1, 2, 3, 4, 5]
    (by decide) (by decide) (by decide)).1
  rw [h]
  decide
